import Mathlib

/-
Verification development for the joovy voice-channel music bot.

The development shallowly embeds the parts of the TypeScript source that the
claims are about:

* the persistence layer (source file `src/unnamed/part_001`): versioned
  records, `trackPlaylist`, `backupV1`, `restoreV1`;
* the per-channel session manager `src/src/connectionHandler.ts`
  (`initMsgHandler` / `initCmdObserver`): message filtering, session registry,
  command routing, the `/disconnect` teardown sequence;
* the `/seek` argument handling of `src/src/command/impl/Seek.ts`.

Stores are association lists from string keys to parsed record values (the
canonicalized form of the JSON the code round-trips through
`JSON.parse`/`JSON.stringify`).  RxJS subjects and observables are embedded as
explicit state passing plus ordered effect traces.
-/

namespace Joovy

/-! ## Association-list store primitives -/

/-- Lookup in an association list, first binding wins (the embedding of a
keyed map read: the registry `Map.get` and the level store `get`). -/
def alookup {α : Type} (k : String) : List (String × α) → Option α
  | [] => none
  | (k', v) :: rest => if k' = k then some v else alookup k rest

/-- Keyed overwrite: replaces the binding for `k` if present, otherwise
appends a new binding (the embedding of the store `put`). -/
def storePut {α : Type} : List (String × α) → String → α → List (String × α)
  | [], k, v => [(k, v)]
  | (k', v') :: rest, k, v =>
    if k' = k then (k, v) :: rest else (k', v') :: storePut rest k v

/-! ## Versioned persisted records (part_001)

Persisted values are JSON envelopes `{ meta: { name, version }, ... }`.  In
the embedding a store value is the canonicalized parse of that JSON:
a channel record, a playlist record, or a record with some other envelope
tag (carried opaquely, as `JSON.parse` would). -/

/-- Envelope metadata: the `meta` field every persisted record carries. -/
structure MetaV where
  name : String
  version : String
deriving DecidableEq

/-- The persisted author record `AuthorV1`. -/
structure AuthorV1 where
  meta : MetaV
  id : String
  username : String
deriving DecidableEq

/-- The persisted track record `TrackV1`. -/
structure TrackV1 where
  meta : MetaV
  author : AuthorV1
  name : String
  link : String
deriving DecidableEq

/-- The persisted channel record `ChannelV1`: an append-only list of playlist
identifiers. -/
structure ChannelV1 where
  meta : MetaV
  playlists : List String
deriving DecidableEq

/-- The persisted playlist snapshot `PlaylistV1`. -/
structure PlaylistV1 where
  meta : MetaV
  date : Int
  tracks : List TrackV1
deriving DecidableEq

/-- A parsed store value.  `otherRec` is a record whose envelope tag is not
one the repository layer produces; its payload is carried opaquely. -/
inductive StoreVal where
  | channelRec (c : ChannelV1)
  | playlistRec (p : PlaylistV1)
  | otherRec (meta : MetaV) (raw : String)
deriving DecidableEq

/-- The whole key/value store (LevelDB contents), in scan order. -/
abbrev Store := List (String × StoreVal)

/-- The envelope metadata of a parsed value (`item.meta`). -/
def metaOf : StoreVal → MetaV
  | .channelRec c => c.meta
  | .playlistRec p => p.meta
  | .otherRec m _ => m

/-- Classification used by `backupV1`: `item.meta.name === Type.Channel`. -/
def isChannel (v : StoreVal) : Bool := (metaOf v).name == "channel"

/-- Classification used by `backupV1`: `item.meta.name === Type.Playlist`. -/
def isPlaylist (v : StoreVal) : Bool := (metaOf v).name == "playlist"

/-- The backup payload: channel records and playlist records, each with the
store key they were found under. -/
structure BackupV1 where
  channels : List (String × StoreVal)
  playlists : List (String × StoreVal)
deriving DecidableEq

/-- Embedding of `backupV1` (part_001 lines 127-156): scan every record of
the store in order; a channel-tagged record is pushed onto the channel
collection, a playlist-tagged record onto the playlist collection, and any
other tag throws, failing the whole backup operation. -/
def backupV1 : Store → Except String BackupV1
  | [] => .ok ⟨[], []⟩
  | (k, v) :: rest =>
    if isChannel v then
      match backupV1 rest with
      | .ok b => .ok ⟨(k, v) :: b.channels, b.playlists⟩
      | .error e => .error e
    else if isPlaylist v then
      match backupV1 rest with
      | .ok b => .ok ⟨b.channels, (k, v) :: b.playlists⟩
      | .error e => .error e
    else
      .error ("Unknown object: " ++ k)

/-- Embedding of `restoreV1` (part_001 lines 106-125): every channel record
and every playlist record of the backup is written back with the plain store
`put`, i.e. last-write-wins overwrite per key. -/
def restoreV1 (b : BackupV1) (store : Store) : Store :=
  (b.channels ++ b.playlists).foldl (fun st kv => storePut st kv.1 kv.2) store

/-! ## Concrete fixtures used by witnesses -/

/-- A concrete channel record. -/
def chanRecW : StoreVal :=
  .channelRec ⟨⟨"channel", "1"⟩, ["p1"]⟩

/-- A concrete playlist record. -/
def playRecW : StoreVal :=
  .playlistRec ⟨⟨"playlist", "1"⟩, 0, []⟩

/-- A concrete two-record store. -/
def storeW : Store :=
  [("channel:a", chanRecW), ("playlist:p1", playRecW)]

/-- The backup payload `backupV1` produces for `storeW`. -/
def backupW : BackupV1 :=
  ⟨[("channel:a", chanRecW)], [("playlist:p1", playRecW)]⟩

/-! ## The playlist tracking pipeline (`trackPlaylist`, part_001 lines 10-48)

The pipeline is embedded with explicit state passing: the current store, the
ordered list of store writes performed so far, and an `Except` result for the
errors a real store can raise.  Store failures are injected through `bad`,
the set of keys whose reads/writes fail. -/

/-- The author of a resolved track (`track.author`). -/
structure TrackAuthor where
  id : String
  username : String
deriving DecidableEq

/-- A track as the player layer resolves it (`player/Track`). -/
structure Track where
  author : TrackAuthor
  name : String
  link : String
deriving DecidableEq

/-- Embedding of `trackToTrackV1` (part_001 lines 158-175). -/
def trackToTrackV1 (t : Track) : TrackV1 :=
  ⟨⟨"track", "1"⟩, ⟨⟨"author", "1"⟩, t.author.id, t.author.username⟩, t.name, t.link⟩

/-- `ChannelRepository.defaultEntity` (part_001 lines 74-84). -/
def defaultChannel : ChannelV1 := ⟨⟨"channel", "1"⟩, []⟩

/-- `PlaylistRepository.defaultEntity` (part_001 lines 86-97); `ts` is
`event.timestamp`. -/
def defaultPlaylist (ts : Int) : PlaylistV1 := ⟨⟨"playlist", "1"⟩, ts, []⟩

/-- A store write performed by the pipeline (`Repository.put`). -/
inductive StoreOp where
  | putRec (key : String) (v : StoreVal)
deriving DecidableEq

/-- The key a store write goes to. -/
def opKey : StoreOp → String
  | .putRec k _ => k

/-- Whether a store write is a channel record that contains `pid` in its
playlists list. -/
def opAppendsPid (pid : String) : StoreOp → Bool
  | .putRec _ (.channelRec c) => decide (pid ∈ c.playlists)
  | _ => false

/-- A store read that can fail (level store `get`); keys in `bad` fail. -/
def storeGetE (bad : List String) (store : Store) (k : String) :
    Except String (Option StoreVal) :=
  if bad.contains k then .error ("get failed: " ++ k) else .ok (alookup k store)

/-- A store write that can fail (level store `put`); keys in `bad` fail. -/
def storePutE (bad : List String) (store : Store) (k : String) (v : StoreVal) :
    Except String Store :=
  if bad.contains k then .error ("put failed: " ++ k) else .ok (storePut store k v)

/-- Embedding of `ChannelRepository.getOrCreate`: read the record, and when
it is absent persist and use the default entity.  A record that does not
decode as a channel is a pipeline error. -/
def getOrCreateChannelE (bad : List String) (store : Store) (cid : String) :
    Except String (ChannelV1 × Store × List StoreOp) :=
  match storeGetE bad store cid with
  | .error e => .error e
  | .ok (some (.channelRec c)) => .ok (c, store, [])
  | .ok (some _) => .error ("channel decode failed: " ++ cid)
  | .ok none =>
    match storePutE bad store cid (.channelRec defaultChannel) with
    | .error e => .error e
    | .ok st => .ok (defaultChannel, st, [.putRec cid (.channelRec defaultChannel)])

/-- Embedding of `PlaylistRepository.getOrCreate`. -/
def getOrCreatePlaylistE (bad : List String) (store : Store) (pid : String) (ts : Int) :
    Except String (PlaylistV1 × Store × List StoreOp) :=
  match storeGetE bad store pid with
  | .error e => .error e
  | .ok (some (.playlistRec p)) => .ok (p, store, [])
  | .ok (some _) => .error ("playlist decode failed: " ++ pid)
  | .ok none =>
    match storePutE bad store pid (.playlistRec (defaultPlaylist ts)) with
    | .error e => .error e
    | .ok st => .ok (defaultPlaylist ts, st, [.putRec pid (.playlistRec (defaultPlaylist ts))])

/-- Embedding of the subscription to `playlist.internalCurrentQueue`
(part_001 lines 26-35): for each emission of the current queue, read the
playlist record (creating it on first use), replace its `tracks` with the
full mapped current queue, and write the whole snapshot back. -/
def emissionsFold (bad : List String) (pid : String) (ts : Int) :
    List (List Track) → Store → List StoreOp → Except String (Store × List StoreOp)
  | [], st, ops => .ok (st, ops)
  | q :: qs, st, ops =>
    match getOrCreatePlaylistE bad st pid ts with
    | .error e => .error e
    | .ok (pl, stA, opsA) =>
      let pl' : PlaylistV1 := { pl with tracks := q.map trackToTrackV1 }
      match storePutE bad stA pid (.playlistRec pl') with
      | .error e => .error e
      | .ok stB =>
        emissionsFold bad pid ts qs stB (ops ++ opsA ++ [.putRec pid (.playlistRec pl')])

/-- Embedding of the `trackPlaylist` pipeline (part_001 lines 10-42):
`createPlaylist` first appends the fresh playlist id to the channel record
and writes it back, then (`concat`) every current-queue emission rewrites
the full playlist snapshot. -/
def trackPlaylistPipeline (bad : List String) (store0 : Store) (cid pid : String)
    (ts : Int) (ems : List (List Track)) : Except String (Store × List StoreOp) :=
  match getOrCreateChannelE bad store0 cid with
  | .error e => .error e
  | .ok (ch, st1, ops1) =>
    let ch' : ChannelV1 := { ch with playlists := ch.playlists ++ [pid] }
    match storePutE bad st1 cid (.channelRec ch') with
    | .error e => .error e
    | .ok st2 =>
      emissionsFold bad pid ts ems st2 (ops1 ++ [.putRec cid (.channelRec ch')])

/-- Outcome of the deployed `trackPlaylist`: either the pipeline's effects,
or a pipeline error converted into a locally handled event. -/
inductive TrackingOutcome where
  | tracked (store : Store) (ops : List StoreOp)
  | handled (err : String)
deriving DecidableEq

/-- Embedding of `trackPlaylist` (part_001 lines 44-47): the pipeline runs
under `catchError(err => errorHandler(event, err))`.  `errorHandler` itself
is not under `src/`; modelled from the spec: persistence failures are
caught, logged, and never propagated, so an error becomes a locally handled
outcome rather than a failure of the caller. -/
def trackPlaylist (bad : List String) (store0 : Store) (cid pid : String)
    (ts : Int) (ems : List (List Track)) : TrackingOutcome :=
  match trackPlaylistPipeline bad store0 cid pid ts ems with
  | .ok (st, ops) => .tracked st ops
  | .error e => .handled e

/-- The snapshot write an emission produces: the full current queue, mapped
through `trackToTrackV1`, under the active playlist id. -/
def snapshotPut (pid : String) (mv : MetaV) (dt : Int) (q : List Track) : StoreOp :=
  .putRec pid (.playlistRec ⟨mv, dt, q.map trackToTrackV1⟩)

/-- The playlist-keyed writes `trackPlaylist` performs for a fresh playlist
id: on the first emission the default record is created and then the first
full snapshot written; every later emission rewrites the full snapshot. -/
def expectedPlaylistOps (pid : String) (ts : Int) : List (List Track) → List StoreOp
  | [] => []
  | q :: qs =>
    .putRec pid (.playlistRec (defaultPlaylist ts)) ::
    snapshotPut pid ⟨"playlist", "1"⟩ ts q ::
    qs.map (snapshotPut pid ⟨"playlist", "1"⟩ ts)

/-- A concrete track used by witnesses. -/
def trackW : Track := ⟨⟨"u1", "user"⟩, "song", "link"⟩

/-! ## JavaScript string helpers

`String.prototype.split` and `Number`, on character lists, as the command
handlers use them. -/

/-- Worker for JS `split` with a nonempty separator: scan left to right and
break at each leftmost occurrence of the separator. -/
def jsSplitGo (sep : List Char) : List Char → List Char → List (List Char)
  | [], acc => [acc.reverse]
  | c :: rest, acc =>
    if sep.isPrefixOf (c :: rest) then
      acc.reverse :: jsSplitGo sep (List.drop (sep.length - 1) rest) []
    else
      jsSplitGo sep rest (c :: acc)
termination_by l _ => l.length
decreasing_by
  · simp only [List.length_drop, List.length_cons]
    omega
  · simp only [List.length_cons]
    omega

/-- JS `content.split(sep)` on character lists. -/
def jsSplit (sep s : List Char) : List (List Char) :=
  jsSplitGo sep s []

/-- Numeric value of a digit string. -/
def digitsVal (s : List Char) : Nat :=
  s.foldl (fun acc c => acc * 10 + (c.toNat - 48)) 0

/-- Model of JS `Number(...)` on the inputs the command handlers see:
a digit-only string evaluates to its numeric value (the empty string to 0,
as in JS); `none` models `NaN` for anything else. -/
def jsNumber (s : List Char) : Option Nat :=
  if s.all Char.isDigit then some (digitsVal s) else none

/-- `Number` applied to a possibly-undefined index access:
`Number(undefined)` is `NaN`. -/
def jsNumberAt (s : Option (List Char)) : Option Nat :=
  match s with
  | none => none
  | some s => jsNumber s

/-- JS `s.startsWith(p)` on the underlying character lists. -/
def strStarts (s p : String) : Bool := p.data.isPrefixOf s.data

/-- The separator `'/seek '` used by `content.split('/seek ')`. -/
def seekSep : List Char := ['/', 's', 'e', 'e', 'k', ' ']

/-- Embedding of `Seek.handleMessage` (Seek.ts lines 11-29) and the
identical `/seek` branch of `initCmdObserver` (connectionHandler.ts lines
168-179).  Result: `none` when no seek event is emitted (missing or empty
argument); `some v` when `env.seek.next` fires with offset `v` in seconds
(`v = none` models NaN). -/
def seekBranch (content : List Char) : Option (Option Nat) :=
  match (jsSplit seekSep content)[1]? with
  | none => none
  | some seek =>
    if seek = [] then none
    else
      let splitSeek := jsSplit [':'] seek
      if 1 < splitSeek.length then
        match jsNumberAt splitSeek[0]?, jsNumberAt splitSeek[1]? with
        | some m, some s => some (some (m * 60 + s))
        | _, _ => some none
      else
        some (jsNumber seek)

/-! ## The per-channel session manager (connectionHandler.ts)

`initMsgHandler` keeps a registry `msgObservers : Map channelId (Subject)`;
a message for a channel with no registry entry bootstraps a session
(`initCmdObserver` plus `Player.init`) and every message is then routed to
the channel's subject.  Sessions are identified by the order of creation
(`nextSid` is a fresh-session counter); the handler's observable effects are
collected in an ordered trace. -/

/-- Outcome of `QueryResolver.resolve` for a message (external
collaborator): a resolved track, no result, or a thrown error. -/
inductive Resolution where
  | found (name link : String)
  | notFound
  | failed (err : String)
deriving DecidableEq

/-- An inbound `MsgEvent`: author-bot flag, raw content, the voice channel
of the sender (if any), and the resolution outcome its `/play`-style
command would get. -/
structure MsgIn where
  authorBot : Bool
  content : String
  voiceChannelId : Option String
  resolution : Resolution
deriving DecidableEq

/-- Observable effects of the handler, in order.  `playerStopped` and
`playerDisconnected` embed the Player's own subscription to
`env.disconnect` (the Player source is not under `src/`; modelled from the
spec: teardown stops pending playback and disconnects the Player before the
command observer's own teardown steps run). -/
inductive Effect where
  | sessionCreated (channelId : String) (sid : Nat)
  | playerCreated (sid : Nat)
  | routed (channelId : String) (sid : Nat)
  | reply (sid : Nat) (msg : String)
  | errorReply (msg : String)
  | logError (sid : Nat) (err : String)
  | itemQueued (sid : Nat) (name link : String)
  | itemQueuedNext (sid : Nat) (name link : String)
  | helpPrinted (sid : Nat)
  | seekSignal (sid : Nat) (value : Option Nat)
  | skipSignal (sid : Nat)
  | bassSignal (sid : Nat) (level : Option Nat)
  | removeSignal (sid : Nat) (fromIdx toIdx : Option Nat)
  | printQueueSignal (sid : Nat)
  | commandCalled (name : String)
  | playerStopped (sid : Nat)
  | playerDisconnected (sid : Nat)
  | envChannelsCompleted (sid : Nat)
  | observerUnsubscribed (sid : Nat)
  | channelObserverCompleted (sid : Nat)
  | removedFromRegistry (channelId : String) (sid : Nat)
deriving DecidableEq

/-- Handler state: the live registry `msgObservers` (channel id to session
id) and the fresh-session counter. -/
structure HState where
  registry : List (String × Nat)
  nextSid : Nat
deriving DecidableEq

/-- The state `initMsgHandler` starts from: empty registry. -/
def initialHState : HState := ⟨[], 0⟩

/-- Embedding of `addItemToQueue` (connectionHandler.ts lines 148-160): the
resolution outcome is delivered to the queue (`/play` appends, `/playnext`
inserts next, each confirmed by the subscriptions of lines 85-91); a null
result or a thrown error is converted into a user-facing reply on
`env.sendMessage`. -/
def addItemEffects (sid : Nat) (content : String) (res : Resolution) (next : Bool) :
    List Effect :=
  match res with
  | .found name link =>
    if next then
      [.itemQueuedNext sid name link, .reply sid (name ++ " will be played next.")]
    else
      [.itemQueued sid name link, .reply sid (name ++ " has been added to the queue.")]
  | .notFound => [.reply sid ("Unable to find result for: " ++ content)]
  | .failed e => [.logError sid e, .reply sid ("Unable to add song to playlist: " ++ e)]

/-- Embedding of the `/disconnect` delivery on `env.disconnect`, in
subscription order: first the Player's handler (stop pending playback,
disconnect the player — modelled from the spec, the Player source is not
under `src/`), then the `initCmdObserver` handler of lines 199-209: send
'Bye!', complete every `env` subject, unsubscribe the command observer,
complete the channel observer, and delete the channel from the registry. -/
def teardownEffects (ch : String) (sid : Nat) : List Effect :=
  [.playerStopped sid, .playerDisconnected sid, .reply sid "Bye!",
   .envChannelsCompleted sid, .observerUnsubscribed sid, .channelObserverCompleted sid,
   .removedFromRegistry ch sid]

/-- Embedding of the non-teardown command branches of the
`channelObserverWithMsg` subscriber (connectionHandler.ts lines 144-196). -/
def commandEffects (sid : Nat) (m : MsgIn) : List Effect :=
  if strStarts m.content "/playnext" then addItemEffects sid m.content m.resolution true
  else if strStarts m.content "/play" then addItemEffects sid m.content m.resolution false
  else if m.content = "/help" then [.helpPrinted sid]
  else if strStarts m.content "/seek" then
    match seekBranch m.content.data with
    | none => []
    | some v => [.seekSignal sid v]
  else if m.content = "/skip" then [.skipSignal sid]
  else if strStarts m.content "/bass" then
    [.bassSignal sid (jsNumberAt (jsSplit [' '] m.content.data)[1]?)]
  else if strStarts m.content "/remove" then
    let parts := jsSplit [' '] m.content.data
    let fromV := jsNumberAt parts[1]?
    let toV := match parts[2]? with
      | some s2 => jsNumber s2
      | none => fromV
    [.removeSignal sid fromV toV]
  else if m.content = "/queue" then [.printQueueSignal sid]
  else [.reply sid ("Unknown command: `" ++ m.content ++ "`, type `/help` for available commands.")]

/-- `msgObservers.delete(channelId)`. -/
def removeChannel (ch : String) (reg : List (String × Nat)) : List (String × Nat) :=
  reg.filter (fun p => p.1 != ch)

/-- Routing one message to a channel's session (`subject.next(v)` on line
61): `/disconnect` runs the teardown sequence and removes the session from
the registry, every other content produces its command effects. -/
def routeTo (st : HState) (ch : String) (sid : Nat) (m : MsgIn) : HState × List Effect :=
  if m.content = "/disconnect" then
    ({ st with registry := removeChannel ch st.registry },
      .routed ch sid :: teardownEffects ch sid)
  else
    (st, .routed ch sid :: commandEffects sid m)

/-- Embedding of one delivery of `initMsgHandler`'s pipeline (lines 24-63):
bot messages and messages without a leading slash are filtered out; a
sender without a voice channel produces the caught `ErrorWithMessage`
reply; otherwise the channel's session is looked up, bootstrapped when
missing (`initCmdObserver` + `Player.init`), and the message routed. -/
def processMsg (st : HState) (m : MsgIn) : HState × List Effect :=
  if m.authorBot then (st, [])
  else if ¬ strStarts m.content "/" then (st, [])
  else
    match m.voiceChannelId with
    | none =>
      (st, [.errorReply "Could not determine channel id, are you joined to a voice channel?"])
    | some ch =>
      match alookup ch st.registry with
      | some sid => routeTo st ch sid m
      | none =>
        let sid := st.nextSid
        let st1 : HState := ⟨st.registry ++ [(ch, sid)], st.nextSid + 1⟩
        let r := routeTo st1 ch sid m
        (r.1, .sessionCreated ch sid :: .playerCreated sid :: r.2)

/-- Processing a whole inbound message sequence, concatenating effect
traces. -/
def runMsgs : HState → List MsgIn → HState × List Effect
  | st, [] => (st, [])
  | st, m :: ms =>
    let r1 := processMsg st m
    let r2 := runMsgs r1.1 ms
    (r2.1, r1.2 ++ r2.2)

/-- Number of registry entries for a channel. -/
def keyCount (ch : String) (reg : List (String × Nat)) : Nat :=
  reg.countP (fun p => p.1 == ch)

/-- Number of session creations for a channel in a trace. -/
def createdCount (ch : String) (tr : List Effect) : Nat :=
  tr.countP (fun e => match e with
    | .sessionCreated ch' _ => ch' == ch
    | _ => false)

/-- Number of registry removals for a channel in a trace. -/
def removedCount (ch : String) (tr : List Effect) : Nat :=
  tr.countP (fun e => match e with
    | .removedFromRegistry ch' _ => ch' == ch
    | _ => false)

/-- The session a teardown-step effect belongs to, if the effect is a
teardown step. -/
def teardownSidOf : Effect → Option Nat
  | .playerStopped s => some s
  | .playerDisconnected s => some s
  | .envChannelsCompleted s => some s
  | .observerUnsubscribed s => some s
  | .channelObserverCompleted s => some s
  | .removedFromRegistry _ s => some s
  | _ => none

/-- Handler-state invariant: registry keys are unique (one live session per
channel), session ids are unique, and every live session id is below the
fresh counter. -/
def HInv (st : HState) : Prop :=
  (st.registry.map Prod.fst).Nodup ∧ (st.registry.map Prod.snd).Nodup ∧
  ∀ p ∈ st.registry, p.2 < st.nextSid

/-- A session id that is dead: not in the registry, and below the fresh
counter (so it can never be allocated again). -/
def NoSid (sid : Nat) (st : HState) : Prop :=
  (∀ p ∈ st.registry, p.2 ≠ sid) ∧ sid < st.nextSid

/-! ## The rewritten message handler (C8)

Modelled from the spec: `messageHandler.ts` and the `Disconnect` command
implementation are not under `src/` (only their test suite,
`src/unnamed/part_000`, is).  Per the spec's Session Manager contract
("`teardown(channelId)` disposes and removes a session") and its §9
resolution ("`/disconnect` on a never-created channel is a no-op"), a
`/disconnect` for a channel with a live player disconnects and removes it
and replies 'Bye!', while a `/disconnect` for a channel with no live player
only acknowledges the command. -/

/-- State of the rewritten handler: the live players per channel. -/
structure NHState where
  players : List (String × Nat)
deriving DecidableEq

/-- Modelled from the spec: dispatch of a `/disconnect` command in the
rewritten message handler (see the section comment above). -/
def nhHandleDisconnect (st : NHState) (ch : String) : NHState × List Effect :=
  match alookup ch st.players with
  | some sid =>
    (⟨removeChannel ch st.players⟩,
      [.commandCalled "/disconnect", .playerDisconnected sid,
       .removedFromRegistry ch sid, .reply sid "Bye!"])
  | none => (st, [.commandCalled "/disconnect"])

/-- Effects that neither create a session nor perform any teardown step:
everything a non-`/disconnect` command branch can produce. -/
def benignEffect : Effect → Bool
  | .sessionCreated _ _ => false
  | .playerCreated _ => false
  | .routed _ _ => false
  | .playerStopped _ => false
  | .playerDisconnected _ => false
  | .envChannelsCompleted _ => false
  | .observerUnsubscribed _ => false
  | .channelObserverCompleted _ => false
  | .removedFromRegistry _ _ => false
  | _ => true

/-- A concrete one-session handler state used by witnesses. -/
def hStateW : HState := ⟨[("vc", 0)], 1⟩

/-- A concrete failing `/play` message used by witnesses. -/
def playFailW : MsgIn := ⟨false, "/play zzz", some "vc", .failed "boom"⟩

/-- A concrete `/disconnect` message used by witnesses. -/
def disconnectW : MsgIn := ⟨false, "/disconnect", some "vc", .notFound⟩

/-- A concrete successful `/play` message used by witnesses. -/
def playW : MsgIn := ⟨false, "/play song", some "vc", .found "n" "l"⟩

/-- A concrete bot-authored message used by witnesses. -/
def botW : MsgIn := ⟨true, "/test", some "vc", .notFound⟩

/-- A concrete non-slash message used by witnesses. -/
def noSlashW : MsgIn := ⟨false, "test", some "vc", .notFound⟩

end Joovy

namespace Joovy

/-! ## Lemmas about the store primitives -/

theorem alookup_storePut_self {α : Type} (s : List (String × α)) (k : String) (v : α) :
    alookup k (storePut s k v) = some v := by
  induction s with
  | nil => simp [storePut, alookup]
  | cons hd tl ih =>
    obtain ⟨k', v'⟩ := hd
    by_cases h : k' = k
    · simp [storePut, h, alookup]
    · simp [storePut, h, alookup, ih]

theorem alookup_storePut_other {α : Type} (s : List (String × α)) (k k' : String) (v : α)
    (h : k' ≠ k) : alookup k' (storePut s k v) = alookup k' s := by
  induction s with
  | nil =>
    simp [storePut, alookup, Ne.symm h]
  | cons hd tl ih =>
    obtain ⟨k₀, v₀⟩ := hd
    by_cases h0 : k₀ = k
    · subst h0
      simp [storePut, alookup, Ne.symm h]
    · simp only [storePut, if_neg h0]
      by_cases h1 : k₀ = k'
      · simp [alookup, h1]
      · simp [alookup, h1, ih]

theorem storePut_of_not_mem {α : Type} (s : List (String × α)) (k : String) (v : α)
    (h : k ∉ s.map Prod.fst) : storePut s k v = s ++ [(k, v)] := by
  induction s with
  | nil => simp [storePut]
  | cons hd tl ih =>
    obtain ⟨k', v'⟩ := hd
    simp only [List.map_cons, List.mem_cons, not_or] at h
    have h1 : ¬ k' = k := fun hh => h.1 hh.symm
    simp [storePut, h1, ih h.2]

theorem alookup_eq_none_of_not_mem {α : Type} (s : List (String × α)) (k : String)
    (h : k ∉ s.map Prod.fst) : alookup k s = none := by
  induction s with
  | nil => rfl
  | cons hd tl ih =>
    obtain ⟨k', v'⟩ := hd
    simp only [List.map_cons, List.mem_cons, not_or] at h
    have h1 : ¬ k' = k := fun hh => h.1 hh.symm
    simp [alookup, h1, ih h.2]

/-! ## Lemmas about backup and restore -/

theorem backupV1_perm (store : Store) (b : BackupV1)
    (h : backupV1 store = .ok b) : store.Perm (b.channels ++ b.playlists) := by
  induction store generalizing b with
  | nil =>
    simp only [backupV1] at h
    cases h
    simp
  | cons hd tl ih =>
    obtain ⟨k, v⟩ := hd
    simp only [backupV1] at h
    by_cases hc : isChannel v
    · simp only [hc, if_true] at h
      cases htl : backupV1 tl with
      | ok b' =>
        rw [htl] at h
        cases h
        exact List.Perm.cons _ (ih b' htl)
      | error e => rw [htl] at h; cases h
    · simp only [hc, if_false] at h
      by_cases hp : isPlaylist v
      · simp only [hp, if_true] at h
        cases htl : backupV1 tl with
        | ok b' =>
          rw [htl] at h
          cases h
          exact ((ih b' htl).cons _).trans List.perm_middle.symm
        | error e => rw [htl] at h; cases h
      · simp only [hp, if_false] at h
        cases h

/-- Lookup respects permutation on association lists with no duplicate
keys. -/
theorem alookup_perm {α : Type} (k : String) (l₁ l₂ : List (String × α))
    (hp : l₁.Perm l₂) (hnd : (l₁.map Prod.fst).Nodup) :
    alookup k l₁ = alookup k l₂ := by
  induction hp with
  | nil => rfl
  | cons x l ih =>
    obtain ⟨kx, vx⟩ := x
    simp only [List.map_cons, List.nodup_cons] at hnd
    simp [alookup, ih hnd.2]
  | swap x y l =>
    obtain ⟨kx, vx⟩ := x
    obtain ⟨ky, vy⟩ := y
    simp only [List.map_cons, List.nodup_cons, List.mem_cons, not_or] at hnd
    by_cases h1 : ky = k
    · subst h1
      have : ¬ kx = ky := fun hh => hnd.1.1 hh.symm
      simp [alookup, this]
    · simp [alookup, h1]
  | trans p₁ p₂ ih₁ ih₂ =>
    rename_i l₁' l₂' l₃'
    have hnd₂ : (l₂'.map Prod.fst).Nodup := (p₁.map Prod.fst).nodup_iff.mp hnd
    exact (ih₁ hnd).trans (ih₂ hnd₂)

theorem foldl_storePut_append {α : Type} (l s : List (String × α))
    (h : ((s ++ l).map Prod.fst).Nodup) :
    l.foldl (fun st kv => storePut st kv.1 kv.2) s = s ++ l := by
  induction l generalizing s with
  | nil => simp
  | cons hd tl ih =>
    obtain ⟨k, v⟩ := hd
    have hk : k ∉ s.map Prod.fst := by
      intro hmem
      rw [List.map_append] at h
      have hdisj := List.disjoint_of_nodup_append h
      exact hdisj hmem (by simp)
    rw [List.foldl_cons]
    rw [storePut_of_not_mem s k v hk]
    have h' : (((s ++ [(k, v)]) ++ tl).map Prod.fst).Nodup := by
      simpa using h
    rw [ih _ h']
    simp

theorem backupV1_tags (store : Store) (b : BackupV1)
    (h : backupV1 store = .ok b) :
    (∀ kv ∈ b.channels, isChannel kv.2 = true) ∧
    (∀ kv ∈ b.playlists, isPlaylist kv.2 = true) := by
  induction store generalizing b with
  | nil =>
    simp only [backupV1] at h
    cases h
    exact ⟨by simp, by simp⟩
  | cons hd tl ih =>
    obtain ⟨k, v⟩ := hd
    simp only [backupV1] at h
    by_cases hc : isChannel v
    · simp only [hc, if_true] at h
      cases htl : backupV1 tl with
      | ok b' =>
        rw [htl] at h
        cases h
        obtain ⟨ih1, ih2⟩ := ih b' htl
        refine ⟨?_, ih2⟩
        intro kv hkv
        rcases List.mem_cons.mp hkv with h1 | h1
        · subst h1; exact hc
        · exact ih1 kv h1
      | error e => rw [htl] at h; cases h
    · simp only [hc, if_false] at h
      by_cases hp : isPlaylist v
      · simp only [hp, if_true] at h
        cases htl : backupV1 tl with
        | ok b' =>
          rw [htl] at h
          cases h
          obtain ⟨ih1, ih2⟩ := ih b' htl
          refine ⟨ih1, ?_⟩
          intro kv hkv
          rcases List.mem_cons.mp hkv with h1 | h1
          · subst h1; exact hp
          · exact ih2 kv h1
        | error e => rw [htl] at h; cases h
      · simp only [hp, if_false] at h
        cases h

theorem backupV1_isOk_of_tagged (store : Store)
    (h : ∀ kv ∈ store, isChannel kv.2 = true ∨ isPlaylist kv.2 = true) :
    ∃ b, backupV1 store = .ok b := by
  induction store with
  | nil => exact ⟨⟨[], []⟩, rfl⟩
  | cons hd tl ih =>
    obtain ⟨k, v⟩ := hd
    obtain ⟨b', hb'⟩ := ih (fun kv hkv => h kv (List.mem_cons_of_mem _ hkv))
    rcases h (k, v) (List.mem_cons_self _ _) with hc | hp
    · exact ⟨⟨(k, v) :: b'.channels, b'.playlists⟩, by simp [backupV1, hc, hb']⟩
    · by_cases hc : isChannel v
      · exact ⟨⟨(k, v) :: b'.channels, b'.playlists⟩, by simp [backupV1, hc, hb']⟩
      · exact ⟨⟨b'.channels, (k, v) :: b'.playlists⟩, by simp [backupV1, hc, hp, hb']⟩

theorem backupV1_error_of_unknown (store : Store) (kv : String × StoreVal)
    (hmem : kv ∈ store) (hc : isChannel kv.2 = false) (hp : isPlaylist kv.2 = false) :
    ∃ e, backupV1 store = .error e := by
  induction store with
  | nil => cases hmem
  | cons hd tl ih =>
    obtain ⟨k, v⟩ := hd
    rcases List.mem_cons.mp hmem with h1 | h1
    · subst h1
      simp only at hc hp
      exact ⟨"Unknown object: " ++ k, by simp [backupV1, hc, hp]⟩
    · obtain ⟨e, he⟩ := ih h1
      by_cases hcv : isChannel v
      · exact ⟨e, by simp [backupV1, hcv, he]⟩
      · by_cases hpv : isPlaylist v
        · exact ⟨e, by simp [backupV1, hcv, hpv, he]⟩
        · exact ⟨"Unknown object: " ++ k, by simp [backupV1, hcv, hpv]⟩

theorem not_isPlaylist_of_isChannel (v : StoreVal) (h : isChannel v = true) :
    isPlaylist v = false := by
  simp only [isChannel, beq_iff_eq] at h
  simp [isPlaylist, h]

/-! ## Claim theorems for backup and restore -/

/-- C4: backing up a store and restoring the payload into an empty store
reproduces exactly the original records, key by key, and `restoreV1`'s
underlying write has last-write-wins overwrite semantics per key. -/
theorem backupV1_restoreV1_roundtrip :
    (∀ (store : Store) (b : BackupV1),
      (store.map Prod.fst).Nodup →
      backupV1 store = .ok b →
      ∀ k, alookup k (restoreV1 b []) = alookup k store) ∧
    (∀ (s : Store) (k k' : String) (v : StoreVal),
      alookup k (storePut s k v) = some v ∧
      (k' ≠ k → alookup k' (storePut s k v) = alookup k' s)) := by
  constructor
  · intro store b hnd hb k
    have hperm := backupV1_perm store b hb
    have hnd' : ((b.channels ++ b.playlists).map Prod.fst).Nodup :=
      ((hperm.map Prod.fst).nodup_iff).mp hnd
    have hfold : restoreV1 b [] = b.channels ++ b.playlists := by
      have := foldl_storePut_append (b.channels ++ b.playlists) [] (by simpa using hnd')
      simpa [restoreV1] using this
    rw [hfold]
    exact (alookup_perm k store (b.channels ++ b.playlists) hperm hnd).symm
  · intro s k k' v
    exact ⟨alookup_storePut_self s k v, fun h => alookup_storePut_other s k k' v h⟩

/-- Witness for C4 at a concrete two-record store. -/
theorem backupV1_restoreV1_roundtrip_witness :
    (storeW.map Prod.fst).Nodup ∧
    backupV1 storeW = .ok backupW ∧
    (∀ k, alookup k (restoreV1 backupW []) = alookup k storeW) := by
  refine ⟨by decide, by rfl, ?_⟩
  exact backupV1_restoreV1_roundtrip.1 storeW backupW (by decide) (by rfl)

/-- C5: `backupV1` scans every record and classifies it by its envelope tag:
if every record is channel- or playlist-tagged the backup succeeds, every
record lands in the collection its tag selects, and nothing is invented;
if any record has an unknown tag, that backup operation fails (the record is
not silently dropped): the failure is the returned error of this one
operation. -/
theorem backupV1_classifies :
    ∀ (store : Store),
      ((∀ kv ∈ store, isChannel kv.2 = true ∨ isPlaylist kv.2 = true) →
        ∃ b, backupV1 store = .ok b ∧
          (∀ kv ∈ store,
            (isChannel kv.2 = true ∧ kv ∈ b.channels) ∨
            (isPlaylist kv.2 = true ∧ kv ∈ b.playlists)) ∧
          (∀ kv ∈ b.channels ++ b.playlists, kv ∈ store)) ∧
      (∀ kv ∈ store, isChannel kv.2 = false → isPlaylist kv.2 = false →
        ∃ e, backupV1 store = .error e) := by
  intro store
  constructor
  · intro hall
    obtain ⟨b, hb⟩ := backupV1_isOk_of_tagged store hall
    have hperm := backupV1_perm store b hb
    obtain ⟨htagc, htagp⟩ := backupV1_tags store b hb
    refine ⟨b, hb, ?_, ?_⟩
    · intro kv hkv
      have hmem : kv ∈ b.channels ++ b.playlists := hperm.mem_iff.mp hkv
      rcases List.mem_append.mp hmem with h1 | h1
      · exact Or.inl ⟨htagc kv h1, h1⟩
      · exact Or.inr ⟨htagp kv h1, h1⟩
    · intro kv hkv
      exact hperm.mem_iff.mpr hkv
  · intro kv hkv hc hp
    exact backupV1_error_of_unknown store kv hkv hc hp

/-- Witness for C5: a successful classification on a concrete store and a
failing backup on a store holding a record with an unknown envelope tag. -/
theorem backupV1_classifies_witness :
    (∃ b, backupV1 storeW = .ok b ∧
      (∀ kv ∈ storeW,
        (isChannel kv.2 = true ∧ kv ∈ b.channels) ∨
        (isPlaylist kv.2 = true ∧ kv ∈ b.playlists)) ∧
      (∀ kv ∈ b.channels ++ b.playlists, kv ∈ storeW)) ∧
    (∃ e, backupV1 [("bad", StoreVal.otherRec ⟨"mystery", "1"⟩ "x")] = .error e) := by
  constructor
  · exact (backupV1_classifies storeW).1 (by decide)
  · exact (backupV1_classifies [("bad", StoreVal.otherRec ⟨"mystery", "1"⟩ "x")]).2
      ("bad", StoreVal.otherRec ⟨"mystery", "1"⟩ "x") (by decide) (by decide) (by decide)

/-! ## Lemmas about the tracking pipeline -/

theorem storeGetE_nil (store : Store) (k : String) :
    storeGetE [] store k = .ok (alookup k store) := rfl

theorem storePutE_nil (store : Store) (k : String) (v : StoreVal) :
    storePutE [] store k v = .ok (storePut store k v) := rfl

/-- Running the emission subscription over a store that already holds the
playlist record: each emission rewrites the full snapshot, keeping the
stored metadata and date. -/
theorem emissionsFold_existing (pid : String) (ts : Int) (qs : List (List Track)) :
    ∀ (st : Store) (ops : List StoreOp) (mv : MetaV) (dt : Int) (tr0 : List TrackV1),
    alookup pid st = some (.playlistRec ⟨mv, dt, tr0⟩) →
    ∃ st',
      emissionsFold [] pid ts qs st ops = .ok (st', ops ++ qs.map (snapshotPut pid mv dt)) ∧
      (∀ k, k ≠ pid → alookup k st' = alookup k st) ∧
      alookup pid st' = some (.playlistRec ⟨mv, dt,
        match qs.getLast? with
        | none => tr0
        | some q => q.map trackToTrackV1⟩) := by
  induction qs with
  | nil =>
    intro st ops mv dt tr0 h
    exact ⟨st, by simp [emissionsFold], fun k _ => rfl, by simp [h]⟩
  | cons q qs ih =>
    intro st ops mv dt tr0 h
    have hunfold : emissionsFold [] pid ts (q :: qs) st ops =
        emissionsFold [] pid ts qs
          (storePut st pid (.playlistRec ⟨mv, dt, q.map trackToTrackV1⟩))
          (ops ++ [] ++ [.putRec pid (.playlistRec ⟨mv, dt, q.map trackToTrackV1⟩)]) := by
      simp [emissionsFold, getOrCreatePlaylistE, storeGetE_nil, storePutE_nil, h]
    obtain ⟨st', h1, h2, h3⟩ := ih
      (storePut st pid (.playlistRec ⟨mv, dt, q.map trackToTrackV1⟩))
      (ops ++ [] ++ [.putRec pid (.playlistRec ⟨mv, dt, q.map trackToTrackV1⟩)])
      mv dt (q.map trackToTrackV1) (alookup_storePut_self _ _ _)
    refine ⟨st', ?_, ?_, ?_⟩
    · rw [hunfold, h1]
      simp [snapshotPut]
    · intro k hk
      rw [h2 k hk, alookup_storePut_other st pid k _ hk]
    · rw [h3]
      cases qs with
      | nil => simp
      | cons q2 qs2 =>
        simp only [List.getLast?_cons_cons]
        cases hl : (q2 :: qs2).getLast? with
        | none => exact absurd hl (by simp [List.getLast?_eq_none_iff])
        | some qn => rfl

/-- Running the emission subscription with a fresh playlist id: the first
emission creates the default record and then writes the first snapshot,
later emissions rewrite the snapshot. -/
theorem emissionsFold_fresh (pid : String) (ts : Int) (ems : List (List Track))
    (st : Store) (ops : List StoreOp) (h : alookup pid st = none) :
    ∃ st',
      emissionsFold [] pid ts ems st ops = .ok (st', ops ++ expectedPlaylistOps pid ts ems) ∧
      (∀ k, k ≠ pid → alookup k st' = alookup k st) ∧
      (∀ q qs, ems = q :: qs → ∃ qn, (q :: qs).getLast? = some qn ∧
        alookup pid st' = some (.playlistRec ⟨⟨"playlist", "1"⟩, ts, qn.map trackToTrackV1⟩)) ∧
      (ems = [] → st' = st) := by
  cases ems with
  | nil =>
    refine ⟨st, by simp [emissionsFold, expectedPlaylistOps], fun k _ => rfl, ?_, fun _ => rfl⟩
    intro q qs hqs
    cases hqs
  | cons q qs =>
    have hunfold : emissionsFold [] pid ts (q :: qs) st ops =
        emissionsFold [] pid ts qs
          (storePut (storePut st pid (.playlistRec (defaultPlaylist ts))) pid
            (.playlistRec ⟨⟨"playlist", "1"⟩, ts, q.map trackToTrackV1⟩))
          (ops ++ [.putRec pid (.playlistRec (defaultPlaylist ts))] ++
            [.putRec pid (.playlistRec ⟨⟨"playlist", "1"⟩, ts, q.map trackToTrackV1⟩)]) := by
      simp [emissionsFold, getOrCreatePlaylistE, storeGetE_nil, storePutE_nil, h, defaultPlaylist]
    obtain ⟨st', h1, h2, h3⟩ := emissionsFold_existing pid ts qs
      (storePut (storePut st pid (.playlistRec (defaultPlaylist ts))) pid
        (.playlistRec ⟨⟨"playlist", "1"⟩, ts, q.map trackToTrackV1⟩))
      (ops ++ [.putRec pid (.playlistRec (defaultPlaylist ts))] ++
        [.putRec pid (.playlistRec ⟨⟨"playlist", "1"⟩, ts, q.map trackToTrackV1⟩)])
      ⟨"playlist", "1"⟩ ts (q.map trackToTrackV1) (alookup_storePut_self _ _ _)
    refine ⟨st', ?_, ?_, ?_, ?_⟩
    · rw [hunfold, h1]
      simp [expectedPlaylistOps, snapshotPut]
    · intro k hk
      rw [h2 k hk, alookup_storePut_other _ pid k _ hk, alookup_storePut_other _ pid k _ hk]
    · intro q' qs' hqs
      injection hqs with hq1 hq2
      subst hq1
      subst hq2
      cases qs with
      | nil =>
        refine ⟨q, by simp, ?_⟩
        simpa using h3
      | cons q2 qs2 =>
        have hlast : ∃ qn, (q2 :: qs2).getLast? = some qn := by
          cases hl : (q2 :: qs2).getLast? with
          | none => exact absurd hl (by simp [List.getLast?_eq_none_iff])
          | some qn => exact ⟨qn, rfl⟩
        obtain ⟨qn, hqn⟩ := hlast
        rw [hqn] at h3
        exact ⟨qn, by simp [List.getLast?_cons_cons, hqn], h3⟩
    · intro hqs
      cases hqs

/-! ## Claim theorems for the tracking pipeline -/

/-- C6: for a fresh playlist id, `trackPlaylist`'s pipeline first appends
the playlist id to the channel record exactly once (every channel write
precedes every snapshot write), and then rewrites the full persisted
snapshot for that playlist id on every current-queue emission, the stored
snapshot always equalling the latest emission in full. -/
theorem trackPlaylist_snapshot_writes
    (store0 : Store) (cid pid : String) (ts : Int) (ems : List (List Track))
    (c0 : ChannelV1)
    (hch : alookup cid store0 = some (.channelRec c0) ∨
      (alookup cid store0 = none ∧ c0 = defaultChannel))
    (hpid : alookup pid store0 = none)
    (hne : cid ≠ pid)
    (hfresh : pid ∉ c0.playlists) :
    ∃ (store' : Store) (chanOps : List StoreOp),
      trackPlaylistPipeline [] store0 cid pid ts ems =
        .ok (store', chanOps ++ expectedPlaylistOps pid ts ems) ∧
      (∀ op ∈ chanOps, opKey op = cid) ∧
      chanOps.getLast? =
        some (.putRec cid (.channelRec { c0 with playlists := c0.playlists ++ [pid] })) ∧
      chanOps.countP (opAppendsPid pid) = 1 ∧
      alookup cid store' = some (.channelRec { c0 with playlists := c0.playlists ++ [pid] }) ∧
      (∀ q qs, ems = q :: qs → ∃ qn, (q :: qs).getLast? = some qn ∧
        alookup pid store' = some (.playlistRec ⟨⟨"playlist", "1"⟩, ts, qn.map trackToTrackV1⟩)) := by
  have hpidc : pid ≠ cid := fun hh => hne hh.symm
  rcases hch with hsome | ⟨hnone, hc0⟩
  · -- the channel record already exists in the store
    have hunfold : trackPlaylistPipeline [] store0 cid pid ts ems =
        emissionsFold [] pid ts ems
          (storePut store0 cid (.channelRec { c0 with playlists := c0.playlists ++ [pid] }))
          ([.putRec cid (.channelRec { c0 with playlists := c0.playlists ++ [pid] })]) := by
      simp [trackPlaylistPipeline, getOrCreateChannelE, storeGetE_nil, storePutE_nil, hsome]
    have hpid2 : alookup pid
        (storePut store0 cid (.channelRec { c0 with playlists := c0.playlists ++ [pid] })) = none := by
      rw [alookup_storePut_other _ cid pid _ hpidc]
      exact hpid
    obtain ⟨st', h1, h2, h3, _⟩ := emissionsFold_fresh pid ts ems _ _ hpid2
    refine ⟨st', [.putRec cid (.channelRec { c0 with playlists := c0.playlists ++ [pid] })],
      ?_, ?_, ?_, ?_, ?_, ?_⟩
    · rw [hunfold, h1]
    · intro op hop
      simp only [List.mem_singleton] at hop
      subst hop
      rfl
    · rfl
    · simp [List.countP, List.countP.go, opAppendsPid]
    · rw [h2 cid hne, alookup_storePut_self]
    · exact h3
  · -- the channel record is created from the default entity first
    subst hc0
    have hunfold : trackPlaylistPipeline [] store0 cid pid ts ems =
        emissionsFold [] pid ts ems
          (storePut (storePut store0 cid (.channelRec defaultChannel)) cid
            (.channelRec { defaultChannel with playlists := defaultChannel.playlists ++ [pid] }))
          ([.putRec cid (.channelRec defaultChannel),
            .putRec cid (.channelRec { defaultChannel with
              playlists := defaultChannel.playlists ++ [pid] })]) := by
      simp [trackPlaylistPipeline, getOrCreateChannelE, storeGetE_nil, storePutE_nil, hnone]
    have hpid2 : alookup pid
        (storePut (storePut store0 cid (.channelRec defaultChannel)) cid
          (.channelRec { defaultChannel with
            playlists := defaultChannel.playlists ++ [pid] })) = none := by
      rw [alookup_storePut_other _ cid pid _ hpidc, alookup_storePut_other _ cid pid _ hpidc]
      exact hpid
    obtain ⟨st', h1, h2, h3, _⟩ := emissionsFold_fresh pid ts ems _ _ hpid2
    refine ⟨st', [.putRec cid (.channelRec defaultChannel),
      .putRec cid (.channelRec { defaultChannel with
        playlists := defaultChannel.playlists ++ [pid] })], ?_, ?_, ?_, ?_, ?_, ?_⟩
    · rw [hunfold, h1]
    · intro op hop
      rcases List.mem_cons.mp hop with h | h
      · subst h; rfl
      · simp only [List.mem_singleton] at h
        subst h; rfl
    · rfl
    · simp [List.countP, List.countP.go, opAppendsPid, defaultChannel]
    · rw [h2 cid hne, alookup_storePut_self]
    · exact h3

/-- Witness for C6: two emissions against a store that already holds a
channel record. -/
theorem trackPlaylist_snapshot_writes_witness :
    ∃ (store' : Store) (chanOps : List StoreOp),
      trackPlaylistPipeline [] [("chan", chanRecW)] "chan" "p2" 7 [[trackW], []] =
        .ok (store', chanOps ++ expectedPlaylistOps "p2" 7 [[trackW], []]) ∧
      (∀ op ∈ chanOps, opKey op = "chan") ∧
      chanOps.getLast? =
        some (.putRec "chan" (.channelRec ⟨⟨"channel", "1"⟩, ["p1", "p2"]⟩)) ∧
      chanOps.countP (opAppendsPid "p2") = 1 ∧
      alookup "chan" store' = some (.channelRec ⟨⟨"channel", "1"⟩, ["p1", "p2"]⟩) ∧
      (∀ q qs, ([[trackW], []] : List (List Track)) = q :: qs →
        ∃ qn, (q :: qs).getLast? = some qn ∧
          alookup "p2" store' = some (.playlistRec ⟨⟨"playlist", "1"⟩, 7, qn.map trackToTrackV1⟩)) := by
  have h := trackPlaylist_snapshot_writes [("chan", chanRecW)] "chan" "p2" 7
    [[trackW], []] ⟨⟨"channel", "1"⟩, ["p1"]⟩
    (Or.inl (by rfl)) (by rfl) (by decide) (by decide)
  simpa using h

/-- C7: every error the persistence pipeline raises is caught at the
`catchError` boundary and becomes a locally handled outcome; it is never
propagated to the caller as a pipeline failure, and a successful pipeline
run is passed through unchanged. -/
theorem trackPlaylist_errors_handled
    (bad : List String) (store0 : Store) (cid pid : String) (ts : Int)
    (ems : List (List Track)) :
    (∀ e, trackPlaylistPipeline bad store0 cid pid ts ems = .error e →
      trackPlaylist bad store0 cid pid ts ems = .handled e) ∧
    (∀ st ops, trackPlaylistPipeline bad store0 cid pid ts ems = .ok (st, ops) →
      trackPlaylist bad store0 cid pid ts ems = .tracked st ops) := by
  constructor
  · intro e he
    simp [trackPlaylist, he]
  · intro st ops hok
    simp [trackPlaylist, hok]

/-- Witness for C7: a store whose channel key fails makes the pipeline
error, and the deployed `trackPlaylist` converts it into a handled
outcome. -/
theorem trackPlaylist_errors_handled_witness :
    trackPlaylistPipeline ["chan"] [] "chan" "p1" 0 [] = .error ("get failed: " ++ "chan") ∧
    trackPlaylist ["chan"] [] "chan" "p1" 0 [] = .handled ("get failed: " ++ "chan") := by
  refine ⟨by rfl, ?_⟩
  exact (trackPlaylist_errors_handled ["chan"] [] "chan" "p1" 0 []).1 _ (by rfl)

/-! ## Lemmas about the session manager -/

theorem commandEffects_all_benign (sid : Nat) (m : MsgIn) :
    (commandEffects sid m).all benignEffect = true := by
  unfold commandEffects addItemEffects
  repeat' split
  all_goals rfl

theorem benign_teardownSidOf (e : Effect) (h : benignEffect e = true) :
    teardownSidOf e = none := by
  cases e <;> first | rfl | exact absurd h (by simp [benignEffect])

theorem benign_not_sessionCreated (e : Effect) (h : benignEffect e = true) (ch : String)
    (s : Nat) : e ≠ .sessionCreated ch s := by
  intro hh
  subst hh
  exact absurd h (by simp [benignEffect])

theorem benign_not_routed (e : Effect) (h : benignEffect e = true) (ch : String)
    (s : Nat) : e ≠ .routed ch s := by
  intro hh
  subst hh
  exact absurd h (by simp [benignEffect])

theorem alookup_mem {α : Type} (k : String) (l : List (String × α)) (v : α)
    (h : alookup k l = some v) : (k, v) ∈ l := by
  induction l with
  | nil => cases h
  | cons hd tl ih =>
    obtain ⟨k', v'⟩ := hd
    by_cases hk : k' = k
    · subst hk
      simp only [alookup, if_pos rfl] at h
      cases h
      exact List.mem_cons_self _ _
    · simp only [alookup, if_neg hk] at h
      exact List.mem_cons_of_mem _ (ih h)

theorem alookup_none_not_mem_keys {α : Type} (k : String) (l : List (String × α))
    (h : alookup k l = none) : k ∉ l.map Prod.fst := by
  induction l with
  | nil => simp
  | cons hd tl ih =>
    obtain ⟨k', v'⟩ := hd
    by_cases hk : k' = k
    · subst hk
      simp [alookup] at h
    · simp only [alookup, if_neg hk] at h
      simp only [List.map_cons, List.mem_cons, not_or]
      exact ⟨fun hh => hk hh.symm, ih h⟩

theorem keyCount_eq_zero_of_alookup_none (ch : String) (reg : List (String × Nat))
    (h : alookup ch reg = none) : keyCount ch reg = 0 := by
  have hnm := alookup_none_not_mem_keys ch reg h
  rw [keyCount, List.countP_eq_zero]
  intro p hp
  simp only [beq_iff_eq]
  intro hh
  exact hnm (by simpa [hh] using List.mem_map_of_mem Prod.fst hp)

theorem keyCount_eq_one_of_alookup_some (ch : String) (reg : List (String × Nat))
    (sid : Nat) (hnd : (reg.map Prod.fst).Nodup) (h : alookup ch reg = some sid) :
    keyCount ch reg = 1 := by
  induction reg with
  | nil => cases h
  | cons hd tl ih =>
    obtain ⟨k', v'⟩ := hd
    simp only [List.map_cons, List.nodup_cons] at hnd
    by_cases hk : k' = ch
    · subst hk
      have htl : List.countP (fun p => p.1 == k') tl = 0 := by
        rw [List.countP_eq_zero]
        intro p hp
        simp only [beq_iff_eq]
        intro hh
        exact hnd.1 (by simpa [hh] using List.mem_map_of_mem Prod.fst hp)
      simp [keyCount, List.countP_cons, htl]
    · simp only [alookup, if_neg hk] at h
      have htl := ih hnd.2 h
      have hf : ((k', v').1 == ch) = false := by simpa using hk
      simpa [keyCount, List.countP_cons, hf] using htl

theorem keyCount_removeChannel_self (ch : String) (reg : List (String × Nat)) :
    keyCount ch (removeChannel ch reg) = 0 := by
  rw [keyCount, List.countP_eq_zero]
  intro p hp
  simp only [removeChannel, List.mem_filter, bne_iff_ne] at hp
  simp only [beq_iff_eq]
  exact hp.2

theorem keyCount_removeChannel_other (ch ch' : String) (reg : List (String × Nat))
    (h : ch ≠ ch') : keyCount ch (removeChannel ch' reg) = keyCount ch reg := by
  induction reg with
  | nil => rfl
  | cons hd tl ih =>
    obtain ⟨k', v'⟩ := hd
    by_cases hk : k' = ch'
    · have hb : ((k', v').1 != ch') = false := by simpa using hk
      have hkch : ((k', v').1 == ch) = false := by
        simp only [beq_eq_false_iff_ne, ne_eq]
        intro hh
        exact h (hh ▸ hk)
      simp only [removeChannel, List.filter_cons, hb, if_neg Bool.false_ne_true]
      simp only [keyCount, List.countP_cons, hkch, if_neg Bool.false_ne_true]
      simpa [keyCount, removeChannel] using ih
    · have hb : ((k', v').1 != ch') = true := by simpa using hk
      have ih' : List.countP (fun p => p.1 == ch) (List.filter (fun p => p.1 != ch') tl) =
          List.countP (fun p => p.1 == ch) tl := by
        simpa [keyCount, removeChannel] using ih
      simp [removeChannel, List.filter_cons, hb, keyCount, List.countP_cons, ih']

theorem registry_filter_nodup (reg : List (String × Nat)) (ch : String)
    (h : (reg.map Prod.fst).Nodup) :
    ((removeChannel ch reg).map Prod.fst).Nodup := by
  exact ((List.filter_sublist reg).map Prod.fst).nodup h

theorem registry_filter_nodup_snd (reg : List (String × Nat)) (ch : String)
    (h : (reg.map Prod.snd).Nodup) :
    ((removeChannel ch reg).map Prod.snd).Nodup := by
  exact ((List.filter_sublist reg).map Prod.snd).nodup h

theorem benign_not_removedFromRegistry (e : Effect) (h : benignEffect e = true)
    (ch : String) (s : Nat) : e ≠ .removedFromRegistry ch s := by
  intro hh
  subst hh
  exact absurd h (by simp [benignEffect])

theorem removedCount_eq_zero (ch : String) (l : List Effect)
    (h : ∀ e ∈ l, ∀ c s, e ≠ Effect.removedFromRegistry c s) : removedCount ch l = 0 := by
  rw [removedCount, List.countP_eq_zero]
  intro e he
  cases e <;> simp only [Bool.false_eq_true, not_false_eq_true] <;> try trivial
  case removedFromRegistry c s =>
    exact absurd rfl (h _ he c s)

theorem createdCount_eq_zero (ch : String) (l : List Effect)
    (h : ∀ e ∈ l, ∀ c s, e ≠ Effect.sessionCreated c s) : createdCount ch l = 0 := by
  rw [createdCount, List.countP_eq_zero]
  intro e he
  cases e <;> simp only [Bool.false_eq_true, not_false_eq_true] <;> try trivial
  case sessionCreated c s =>
    exact absurd rfl (h _ he c s)

theorem removedCount_command (ch ch' : String) (sid : Nat) (m : MsgIn) :
    removedCount ch (Effect.routed ch' sid :: commandEffects sid m) = 0 := by
  apply removedCount_eq_zero
  intro e he c s
  rcases List.mem_cons.mp he with rfl | he
  · intro hh; cases hh
  · exact benign_not_removedFromRegistry e
      (List.all_eq_true.mp (commandEffects_all_benign sid m) e he) c s

theorem createdCount_command (ch ch' : String) (sid : Nat) (m : MsgIn) :
    createdCount ch (Effect.routed ch' sid :: commandEffects sid m) = 0 := by
  apply createdCount_eq_zero
  intro e he c s
  rcases List.mem_cons.mp he with rfl | he
  · intro hh; cases hh
  · exact benign_not_sessionCreated e
      (List.all_eq_true.mp (commandEffects_all_benign sid m) e he) c s

theorem removedCount_cons_created (ch ch' : String) (s : Nat) (l : List Effect) :
    removedCount ch (.sessionCreated ch' s :: .playerCreated s :: l) = removedCount ch l := by
  simp [removedCount, List.countP_cons]

theorem createdCount_cons_created (ch ch' : String) (s : Nat) (l : List Effect) :
    createdCount ch (.sessionCreated ch' s :: .playerCreated s :: l) =
      createdCount ch l + (if ch' = ch then 1 else 0) := by
  by_cases h : ch' = ch <;> simp [createdCount, List.countP_cons, h]

theorem removedCount_teardown (ch ch' : String) (sid : Nat) :
    removedCount ch (Effect.routed ch' sid :: teardownEffects ch' sid) =
      if ch' = ch then 1 else 0 := by
  by_cases h : ch' = ch <;>
    simp [removedCount, teardownEffects, List.countP_cons, h]

theorem createdCount_teardown (ch ch' : String) (sid : Nat) :
    createdCount ch (Effect.routed ch' sid :: teardownEffects ch' sid) = 0 := by
  simp [createdCount, teardownEffects, List.countP_cons]

theorem keyCount_append_single (ch ch' : String) (reg : List (String × Nat)) (sid : Nat) :
    keyCount ch (reg ++ [(ch', sid)]) = keyCount ch reg + (if ch' = ch then 1 else 0) := by
  by_cases h : ch' = ch <;>
    simp [keyCount, List.countP_append, List.countP_cons, h]

theorem hinv_insert (st : HState) (ch' : String) (hinv : HInv st)
    (hl : alookup ch' st.registry = none) :
    HInv ⟨st.registry ++ [(ch', st.nextSid)], st.nextSid + 1⟩ := by
  obtain ⟨hnd1, hnd2, hbound⟩ := hinv
  refine ⟨?_, ?_, ?_⟩
  · rw [List.map_append, List.nodup_append]
    refine ⟨hnd1, by simp, ?_⟩
    intro a ha hb
    simp only [List.map_cons, List.map_nil, List.mem_singleton] at hb
    exact alookup_none_not_mem_keys ch' st.registry hl (hb ▸ ha)
  · rw [List.map_append, List.nodup_append]
    refine ⟨hnd2, by simp, ?_⟩
    intro a ha hb
    simp only [List.map_cons, List.map_nil, List.mem_singleton] at hb
    subst hb
    obtain ⟨p, hp, hps⟩ := List.mem_map.mp ha
    exact absurd (hps ▸ hbound p hp) (lt_irrefl _)
  · intro p hp
    rcases List.mem_append.mp hp with h1 | h1
    · exact Nat.lt_succ_of_lt (hbound p h1)
    · simp only [List.mem_singleton] at h1
      subst h1
      exact Nat.lt_succ_self _

theorem hinv_remove (st : HState) (ch' : String) (hinv : HInv st) :
    HInv ⟨removeChannel ch' st.registry, st.nextSid⟩ := by
  obtain ⟨hnd1, hnd2, hbound⟩ := hinv
  refine ⟨registry_filter_nodup _ _ hnd1, registry_filter_nodup_snd _ _ hnd2, ?_⟩
  intro p hp
  exact hbound p (List.mem_of_mem_filter hp)

/-! ### Equation lemmas for `processMsg` and `routeTo` -/

theorem routeTo_disconnect (st : HState) (ch : String) (sid : Nat) (m : MsgIn)
    (hd : m.content = "/disconnect") :
    routeTo st ch sid m =
      ({ st with registry := removeChannel ch st.registry },
        .routed ch sid :: teardownEffects ch sid) := by
  simp [routeTo, hd]

theorem routeTo_other (st : HState) (ch : String) (sid : Nat) (m : MsgIn)
    (hd : m.content ≠ "/disconnect") :
    routeTo st ch sid m = (st, .routed ch sid :: commandEffects sid m) := by
  simp [routeTo, hd]

theorem processMsg_bot (st : HState) (m : MsgIn) (h : m.authorBot = true) :
    processMsg st m = (st, []) := by
  simp [processMsg, h]

theorem processMsg_noslash (st : HState) (m : MsgIn) (hb : m.authorBot = false)
    (h : strStarts m.content "/" = false) : processMsg st m = (st, []) := by
  simp [processMsg, hb, h]

theorem processMsg_novoice (st : HState) (m : MsgIn) (hb : m.authorBot = false)
    (hs : strStarts m.content "/" = true) (hv : m.voiceChannelId = none) :
    processMsg st m =
      (st, [.errorReply "Could not determine channel id, are you joined to a voice channel?"]) := by
  simp [processMsg, hb, hs, hv]

theorem processMsg_existing (st : HState) (m : MsgIn) (ch' : String) (sid : Nat)
    (hb : m.authorBot = false) (hs : strStarts m.content "/" = true)
    (hv : m.voiceChannelId = some ch') (hl : alookup ch' st.registry = some sid) :
    processMsg st m = routeTo st ch' sid m := by
  simp [processMsg, hb, hs, hv, hl]

theorem processMsg_fresh (st : HState) (m : MsgIn) (ch' : String)
    (hb : m.authorBot = false) (hs : strStarts m.content "/" = true)
    (hv : m.voiceChannelId = some ch') (hl : alookup ch' st.registry = none) :
    processMsg st m =
      ((routeTo ⟨st.registry ++ [(ch', st.nextSid)], st.nextSid + 1⟩ ch' st.nextSid m).1,
        .sessionCreated ch' st.nextSid :: .playerCreated st.nextSid ::
          (routeTo ⟨st.registry ++ [(ch', st.nextSid)], st.nextSid + 1⟩ ch' st.nextSid m).2) := by
  simp [processMsg, hb, hs, hv, hl]

/-- One-step conservation: processing one message preserves the handler
invariant, and the net change of live sessions for any channel equals
creations minus removals recorded in the trace. -/
theorem processMsg_conservation (st : HState) (m : MsgIn) (ch : String) (hinv : HInv st) :
    HInv (processMsg st m).1 ∧
    keyCount ch (processMsg st m).1.registry + removedCount ch (processMsg st m).2 =
      keyCount ch st.registry + createdCount ch (processMsg st m).2 := by
  by_cases hbot : m.authorBot = true
  · rw [processMsg_bot st m hbot]
    exact ⟨hinv, by simp [removedCount, createdCount]⟩
  · have hb : m.authorBot = false := by simpa using hbot
    by_cases hsl : strStarts m.content "/" = true
    · cases hv : m.voiceChannelId with
      | none =>
        rw [processMsg_novoice st m hb hsl hv]
        exact ⟨hinv, by simp [removedCount, createdCount, List.countP_cons]⟩
      | some ch' =>
        cases hl : alookup ch' st.registry with
        | some sid =>
          rw [processMsg_existing st m ch' sid hb hsl hv hl]
          by_cases hdisc : m.content = "/disconnect"
          · rw [routeTo_disconnect st ch' sid m hdisc]
            refine ⟨hinv_remove st ch' hinv, ?_⟩
            rw [removedCount_teardown, createdCount_teardown]
            by_cases hch : ch' = ch
            · subst hch
              rw [keyCount_removeChannel_self, if_pos rfl,
                keyCount_eq_one_of_alookup_some ch' st.registry sid hinv.1 hl]
            · rw [keyCount_removeChannel_other ch ch' _ (fun hh => hch hh.symm),
                if_neg hch]
          · rw [routeTo_other st ch' sid m hdisc]
            exact ⟨hinv, by rw [removedCount_command, createdCount_command]⟩
        | none =>
          rw [processMsg_fresh st m ch' hb hsl hv hl]
          have hinv1 := hinv_insert st ch' hinv hl
          by_cases hdisc : m.content = "/disconnect"
          · rw [routeTo_disconnect _ ch' st.nextSid m hdisc]
            refine ⟨hinv_remove _ ch' hinv1, ?_⟩
            rw [removedCount_cons_created, createdCount_cons_created,
              removedCount_teardown, createdCount_teardown]
            by_cases hch : ch' = ch
            · subst hch
              rw [keyCount_removeChannel_self,
                keyCount_eq_zero_of_alookup_none ch' st.registry hl]
              simp
            · rw [keyCount_removeChannel_other ch ch' _ (fun hh => hch hh.symm),
                keyCount_append_single, if_neg hch]
          · rw [routeTo_other _ ch' st.nextSid m hdisc]
            refine ⟨hinv1, ?_⟩
            rw [removedCount_cons_created, createdCount_cons_created,
              removedCount_command, createdCount_command, keyCount_append_single]
            omega
    · have hs : strStarts m.content "/" = false := by simpa using hsl
      rw [processMsg_noslash st m hb hs]
      exact ⟨hinv, by simp [removedCount, createdCount]⟩

theorem teardown_sids (ch' : String) (sid' : Nat) (e : Effect)
    (he : e ∈ Effect.routed ch' sid' :: teardownEffects ch' sid') :
    teardownSidOf e = none ∨ teardownSidOf e = some sid' := by
  simp only [teardownEffects, List.mem_cons, List.not_mem_nil, or_false] at he
  rcases he with rfl | rfl | rfl | rfl | rfl | rfl | rfl | rfl <;> simp [teardownSidOf]

theorem teardown_no_sessionCreated (ch' : String) (sid' : Nat) (e : Effect)
    (he : e ∈ Effect.routed ch' sid' :: teardownEffects ch' sid') (c : String) (s : Nat) :
    e ≠ .sessionCreated c s := by
  simp only [teardownEffects, List.mem_cons, List.not_mem_nil, or_false] at he
  rcases he with rfl | rfl | rfl | rfl | rfl | rfl | rfl | rfl <;> simp

/-- One-step preservation of "session id `sid` is dead": after any message,
`sid` is still not live, and no teardown step for `sid` is emitted. -/
theorem processMsg_noSid (sid : Nat) (st : HState) (m : MsgIn) (h : NoSid sid st) :
    NoSid sid (processMsg st m).1 ∧
    ∀ e ∈ (processMsg st m).2, teardownSidOf e ≠ some sid := by
  obtain ⟨hreg, hlt⟩ := h
  by_cases hbot : m.authorBot = true
  · rw [processMsg_bot st m hbot]
    exact ⟨⟨hreg, hlt⟩, by simp⟩
  · have hb : m.authorBot = false := by simpa using hbot
    by_cases hsl : strStarts m.content "/" = true
    · cases hv : m.voiceChannelId with
      | none =>
        rw [processMsg_novoice st m hb hsl hv]
        refine ⟨⟨hreg, hlt⟩, ?_⟩
        intro e he
        simp only [List.mem_singleton] at he
        subst he
        simp [teardownSidOf]
      | some ch' =>
        cases hl : alookup ch' st.registry with
        | some sid' =>
          have hsid' : sid' ≠ sid := hreg _ (alookup_mem ch' st.registry sid' hl)
          rw [processMsg_existing st m ch' sid' hb hsl hv hl]
          by_cases hdisc : m.content = "/disconnect"
          · rw [routeTo_disconnect st ch' sid' m hdisc]
            refine ⟨⟨?_, hlt⟩, ?_⟩
            · intro p hp
              exact hreg p (List.mem_of_mem_filter hp)
            · intro e he
              rcases teardown_sids ch' sid' e he with h1 | h1 <;> rw [h1] <;> simp [hsid']
          · rw [routeTo_other st ch' sid' m hdisc]
            refine ⟨⟨hreg, hlt⟩, ?_⟩
            intro e he
            rcases List.mem_cons.mp he with rfl | he
            · simp [teardownSidOf]
            · rw [benign_teardownSidOf e
                (List.all_eq_true.mp (commandEffects_all_benign sid' m) e he)]
              simp
        | none =>
          have hfreshne : st.nextSid ≠ sid := fun hh => absurd (hh ▸ hlt) (lt_irrefl _)
          rw [processMsg_fresh st m ch' hb hsl hv hl]
          have hreg1 : ∀ p ∈ st.registry ++ [(ch', st.nextSid)], p.2 ≠ sid := by
            intro p hp
            rcases List.mem_append.mp hp with h1 | h1
            · exact hreg p h1
            · simp only [List.mem_singleton] at h1
              subst h1
              exact hfreshne
          by_cases hdisc : m.content = "/disconnect"
          · rw [routeTo_disconnect _ ch' st.nextSid m hdisc]
            refine ⟨⟨?_, Nat.lt_succ_of_lt hlt⟩, ?_⟩
            · intro p hp
              exact hreg1 p (List.mem_of_mem_filter hp)
            · intro e he
              rcases List.mem_cons.mp he with rfl | he
              · simp [teardownSidOf]
              · rcases List.mem_cons.mp he with rfl | he
                · simp [teardownSidOf]
                · rcases teardown_sids ch' st.nextSid e he with h1 | h1 <;> rw [h1] <;>
                    simp [hfreshne]
          · rw [routeTo_other _ ch' st.nextSid m hdisc]
            refine ⟨⟨hreg1, Nat.lt_succ_of_lt hlt⟩, ?_⟩
            intro e he
            rcases List.mem_cons.mp he with rfl | he
            · simp [teardownSidOf]
            · rcases List.mem_cons.mp he with rfl | he
              · simp [teardownSidOf]
              · rcases List.mem_cons.mp he with rfl | he
                · simp [teardownSidOf]
                · rw [benign_teardownSidOf e
                    (List.all_eq_true.mp (commandEffects_all_benign st.nextSid m) e he)]
                  simp
    · have hs : strStarts m.content "/" = false := by simpa using hsl
      rw [processMsg_noslash st m hb hs]
      exact ⟨⟨hreg, hlt⟩, by simp⟩

theorem removedCount_append (ch : String) (l₁ l₂ : List Effect) :
    removedCount ch (l₁ ++ l₂) = removedCount ch l₁ + removedCount ch l₂ := by
  simp [removedCount, List.countP_append]

theorem createdCount_append (ch : String) (l₁ l₂ : List Effect) :
    createdCount ch (l₁ ++ l₂) = createdCount ch l₁ + createdCount ch l₂ := by
  simp [createdCount, List.countP_append]

/-- Run-level conservation of live sessions for any channel. -/
theorem runMsgs_conservation (ch : String) :
    ∀ (ms : List MsgIn) (st : HState), HInv st →
    HInv (runMsgs st ms).1 ∧
    keyCount ch (runMsgs st ms).1.registry + removedCount ch (runMsgs st ms).2 =
      keyCount ch st.registry + createdCount ch (runMsgs st ms).2 := by
  intro ms
  induction ms with
  | nil =>
    intro st hinv
    exact ⟨hinv, by simp [runMsgs, removedCount, createdCount]⟩
  | cons m ms ih =>
    intro st hinv
    obtain ⟨hinv1, heq1⟩ := processMsg_conservation st m ch hinv
    obtain ⟨hinv2, heq2⟩ := ih (processMsg st m).1 hinv1
    refine ⟨by simpa [runMsgs] using hinv2, ?_⟩
    simp only [runMsgs, removedCount_append, createdCount_append]
    omega

/-- Run-level persistence of a dead session id: no later message ever emits
a teardown step for it. -/
theorem runMsgs_noSid (sid : Nat) :
    ∀ (ms : List MsgIn) (st : HState), NoSid sid st →
    ∀ e ∈ (runMsgs st ms).2, teardownSidOf e ≠ some sid := by
  intro ms
  induction ms with
  | nil =>
    intro st _ e he
    simp [runMsgs] at he
  | cons m ms ih =>
    intro st hns e he
    obtain ⟨hns1, hstep⟩ := processMsg_noSid sid st m hns
    simp only [runMsgs, List.mem_append] at he
    rcases he with he | he
    · exact hstep e he
    · exact ih (processMsg st m).1 hns1 e he

theorem keyCount_le_one (ch : String) (reg : List (String × Nat))
    (hnd : (reg.map Prod.fst).Nodup) : keyCount ch reg ≤ 1 := by
  cases hcase : alookup ch reg with
  | none => rw [keyCount_eq_zero_of_alookup_none ch reg hcase]; omega
  | some sid => rw [keyCount_eq_one_of_alookup_some ch reg sid hnd hcase]

theorem routeTrace_teardown_none (ch : String) (sid : Nat) (m : MsgIn) :
    ∀ e ∈ Effect.routed ch sid :: commandEffects sid m, teardownSidOf e = none := by
  intro e he
  rcases List.mem_cons.mp he with rfl | he
  · rfl
  · exact benign_teardownSidOf e (List.all_eq_true.mp (commandEffects_all_benign sid m) e he)

theorem alookup_removeChannel_self (ch : String) (reg : List (String × Nat)) :
    alookup ch (removeChannel ch reg) = none := by
  apply alookup_eq_none_of_not_mem
  intro hmem
  obtain ⟨p, hp, hps⟩ := List.mem_map.mp hmem
  rw [removeChannel, List.mem_filter] at hp
  exact absurd hps (by simpa using hp.2)

/-- No message can emit a session-creation effect for a channel that
already has a live session. -/
theorem processMsg_no_foreign_create (st : HState) (m : MsgIn) (ch : String) (sid : Nat)
    (hl : alookup ch st.registry = some sid) :
    ∀ s, Effect.sessionCreated ch s ∉ (processMsg st m).2 := by
  intro s hmem
  by_cases hbot : m.authorBot = true
  · rw [processMsg_bot st m hbot] at hmem
    simp at hmem
  · have hb : m.authorBot = false := by simpa using hbot
    by_cases hsl : strStarts m.content "/" = true
    · cases hv : m.voiceChannelId with
      | none =>
        rw [processMsg_novoice st m hb hsl hv] at hmem
        simp at hmem
      | some ch₂ =>
        cases hl₂ : alookup ch₂ st.registry with
        | some sid₂ =>
          rw [processMsg_existing st m ch₂ sid₂ hb hsl hv hl₂] at hmem
          by_cases hdisc : m.content = "/disconnect"
          · rw [routeTo_disconnect st ch₂ sid₂ m hdisc] at hmem
            exact absurd rfl (teardown_no_sessionCreated ch₂ sid₂ _ hmem ch s)
          · rw [routeTo_other st ch₂ sid₂ m hdisc] at hmem
            rcases List.mem_cons.mp hmem with hh | hh
            · cases hh
            · exact absurd rfl (benign_not_sessionCreated _
                (List.all_eq_true.mp (commandEffects_all_benign sid₂ m) _ hh) ch s)
        | none =>
          have hne : ch₂ ≠ ch := by
            intro hh
            rw [hh, hl] at hl₂
            cases hl₂
          rw [processMsg_fresh st m ch₂ hb hsl hv hl₂] at hmem
          rcases List.mem_cons.mp hmem with hh | hh
          · exact hne (Effect.sessionCreated.injEq .. ▸ hh).1.symm
          · rcases List.mem_cons.mp hh with hh₂ | hh₂
            · cases hh₂
            · by_cases hdisc : m.content = "/disconnect"
              · rw [routeTo_disconnect _ ch₂ st.nextSid m hdisc] at hh₂
                exact absurd rfl (teardown_no_sessionCreated ch₂ st.nextSid _ hh₂ ch s)
              · rw [routeTo_other _ ch₂ st.nextSid m hdisc] at hh₂
                rcases List.mem_cons.mp hh₂ with hh₃ | hh₃
                · cases hh₃
                · exact absurd rfl (benign_not_sessionCreated _
                    (List.all_eq_true.mp (commandEffects_all_benign st.nextSid m) _ hh₃) ch s)
    · have hs : strStarts m.content "/" = false := by simpa using hsl
      rw [processMsg_noslash st m hb hs] at hmem
      simp at hmem

/-! ## Claim theorems for the session manager -/

/-- C1: at most one live session (and with it one player) per channel, ever:
after any inbound message sequence from the initial state the registry holds
at most one session per channel; the number of sessions ever created for a
channel exceeds the number removed by exactly the live count, so a new
session is created only after teardown removed the previous one; a message
for a channel with a live session never creates a session and is routed to
exactly that session; and a message for a channel with no live session
creates the session and its player. -/
theorem one_live_session_per_channel :
    ∀ (msgs : List MsgIn) (ch : String),
      keyCount ch (runMsgs initialHState msgs).1.registry ≤ 1 ∧
      createdCount ch (runMsgs initialHState msgs).2 =
        removedCount ch (runMsgs initialHState msgs).2 +
          keyCount ch (runMsgs initialHState msgs).1.registry ∧
      (∀ (st : HState) (m : MsgIn) (sid : Nat),
        alookup ch st.registry = some sid →
        (∀ s, Effect.sessionCreated ch s ∉ (processMsg st m).2) ∧
        (m.authorBot = false → strStarts m.content "/" = true →
          m.voiceChannelId = some ch → Effect.routed ch sid ∈ (processMsg st m).2)) ∧
      (∀ (st : HState) (m : MsgIn),
        alookup ch st.registry = none →
        m.authorBot = false → strStarts m.content "/" = true → m.voiceChannelId = some ch →
        Effect.sessionCreated ch st.nextSid ∈ (processMsg st m).2 ∧
        Effect.playerCreated st.nextSid ∈ (processMsg st m).2) := by
  intro msgs ch
  have hinv0 : HInv initialHState := ⟨by simp [initialHState], by simp [initialHState],
    by simp [initialHState]⟩
  obtain ⟨hinvE, heq⟩ := runMsgs_conservation ch msgs initialHState hinv0
  have hkc0 : keyCount ch initialHState.registry = 0 := rfl
  refine ⟨keyCount_le_one ch _ hinvE.1, by omega, ?_, ?_⟩
  · intro st m sid hl
    refine ⟨processMsg_no_foreign_create st m ch sid hl, ?_⟩
    intro hb hs hv
    rw [processMsg_existing st m ch sid hb hs hv hl]
    by_cases hdisc : m.content = "/disconnect"
    · rw [routeTo_disconnect st ch sid m hdisc]
      exact List.mem_cons_self _ _
    · rw [routeTo_other st ch sid m hdisc]
      exact List.mem_cons_self _ _
  · intro st m hl hb hs hv
    rw [processMsg_fresh st m ch hb hs hv hl]
    exact ⟨List.mem_cons_self _ _, List.mem_cons_of_mem _ (List.mem_cons_self _ _)⟩

/-- Witness for C1: one `/play` from the empty state leaves one live
session for the channel, and concrete routing and creation instances. -/
theorem one_live_session_per_channel_witness :
    keyCount "vc" (runMsgs initialHState [playW]).1.registry ≤ 1 ∧
    Effect.routed "vc" 0 ∈ (processMsg hStateW playFailW).2 ∧
    Effect.sessionCreated "vc" 0 ∈ (processMsg initialHState playW).2 := by
  refine ⟨(one_live_session_per_channel [playW] "vc").1, ?_, ?_⟩
  · exact ((one_live_session_per_channel [playW] "vc").2.2.1 hStateW playFailW 0
      (by rfl)).2 (by rfl) (by decide) (by rfl)
  · exact ((one_live_session_per_channel [playW] "vc").2.2.2 initialHState playW
      (by rfl) (by rfl) (by decide) (by rfl)).1

/-- C2: an error while handling a `/play`-style command on a live session —
a failed or empty track resolution — is converted into a user-facing reply
on that channel's own session; the handler state is unchanged (so the
channel's command stream stays live and no other channel is touched), and
no teardown step of any session is emitted. -/
theorem command_errors_stay_local
    (st : HState) (ch : String) (sid : Nat) (m : MsgIn)
    (hl : alookup ch st.registry = some sid)
    (hb : m.authorBot = false) (hs : strStarts m.content "/" = true)
    (hp : strStarts m.content "/play" = true)
    (hv : m.voiceChannelId = some ch) :
    (processMsg st m).1 = st ∧
    (∀ e ∈ (processMsg st m).2, teardownSidOf e = none) ∧
    (∀ err, m.resolution = .failed err →
      Effect.reply sid ("Unable to add song to playlist: " ++ err) ∈ (processMsg st m).2) ∧
    (m.resolution = .notFound →
      Effect.reply sid ("Unable to find result for: " ++ m.content) ∈ (processMsg st m).2) ∧
    (∀ ch' sid', Effect.routed ch' sid' ∈ (processMsg st m).2 → ch' = ch ∧ sid' = sid) := by
  have hdisc : m.content ≠ "/disconnect" := by
    intro hh
    rw [hh] at hp
    exact absurd hp (by decide)
  rw [processMsg_existing st m ch sid hb hs hv hl, routeTo_other st ch sid m hdisc]
  have hcmd : commandEffects sid m = addItemEffects sid m.content m.resolution true ∨
      commandEffects sid m = addItemEffects sid m.content m.resolution false := by
    by_cases hpn : strStarts m.content "/playnext" = true
    · exact Or.inl (by simp [commandEffects, hpn])
    · have hpn' : strStarts m.content "/playnext" = false := by simpa using hpn
      exact Or.inr (by simp [commandEffects, hpn', hp])
  refine ⟨rfl, routeTrace_teardown_none ch sid m, ?_, ?_, ?_⟩
  · intro err hres
    rcases hcmd with hcmd | hcmd <;>
      simp [hcmd, addItemEffects, hres]
  · intro hres
    rcases hcmd with hcmd | hcmd <;>
      simp [hcmd, addItemEffects, hres]
  · intro ch' sid' hmem
    rcases List.mem_cons.mp hmem with hh | hh
    · exact ⟨((Effect.routed.injEq ..).mp hh.symm).1.symm,
        ((Effect.routed.injEq ..).mp hh.symm).2.symm⟩
    · exact absurd rfl (benign_not_routed _
        (List.all_eq_true.mp (commandEffects_all_benign sid m) _ hh) ch' sid')

/-- Witness for C2: a failing `/play` on a live session replies with the
error and leaves the state unchanged. -/
theorem command_errors_stay_local_witness :
    (processMsg hStateW playFailW).1 = hStateW ∧
    Effect.reply 0 ("Unable to add song to playlist: " ++ "boom") ∈
      (processMsg hStateW playFailW).2 := by
  have h := command_errors_stay_local hStateW "vc" 0 playFailW (by rfl) (by rfl)
    (by decide) (by decide) (by rfl)
  exact ⟨h.1, h.2.2.1 "boom" (by rfl)⟩

/-- C3: `/disconnect` on a live session produces exactly the teardown
sequence — stop pending playback, disconnect the Player, send 'Bye!',
complete the internal event channels, unsubscribe the command observer,
complete the channel observer, remove from the live registry — so the five
steps the claim names occur in the claimed order; afterwards the channel
has no live session and no later message ever emits a teardown step of
that session again. -/
theorem disconnect_teardown_once
    (st : HState) (ch : String) (sid : Nat) (m : MsgIn) (msgs : List MsgIn)
    (hinv : HInv st)
    (hl : alookup ch st.registry = some sid)
    (hb : m.authorBot = false) (hd : m.content = "/disconnect")
    (hv : m.voiceChannelId = some ch) :
    (processMsg st m).2 = .routed ch sid :: teardownEffects ch sid ∧
    List.Sublist
      [Effect.playerStopped sid, Effect.playerDisconnected sid,
       Effect.envChannelsCompleted sid, Effect.observerUnsubscribed sid,
       Effect.removedFromRegistry ch sid]
      (processMsg st m).2 ∧
    alookup ch (processMsg st m).1.registry = none ∧
    (∀ e ∈ (runMsgs (processMsg st m).1 msgs).2, teardownSidOf e ≠ some sid) := by
  have hs : strStarts m.content "/" = true := by rw [hd]; decide
  rw [processMsg_existing st m ch sid hb hs hv hl, routeTo_disconnect st ch sid m hd]
  refine ⟨rfl, ?_, alookup_removeChannel_self ch st.registry, ?_⟩
  · show List.Sublist _ (Effect.routed ch sid :: teardownEffects ch sid)
    rw [teardownEffects]
    exact List.Sublist.cons _ (List.Sublist.cons₂ _ (List.Sublist.cons₂ _
      (List.Sublist.cons _ (List.Sublist.cons₂ _ (List.Sublist.cons₂ _
        (List.Sublist.cons _ (List.Sublist.cons₂ _ List.Sublist.slnil)))))))
  · apply runMsgs_noSid
    constructor
    · intro p hp
      have hpmem := List.mem_of_mem_filter hp
      have hpne : p.1 ≠ ch := by
        rw [removeChannel, List.mem_filter] at hp
        simpa using hp.2
      intro hps
      have hchsid : (ch, sid) ∈ st.registry := alookup_mem ch st.registry sid hl
      have := List.inj_on_of_nodup_map hinv.2.1 hpmem hchsid (by simpa using hps)
      exact hpne (by simpa using congrArg Prod.fst this)
    · exact hinv.2.2 (ch, sid) (alookup_mem ch st.registry sid hl)

/-- Witness for C3: disconnecting the one live session of `hStateW`, then
sending another `/disconnect` (which bootstraps and tears down a fresh
session, never session 0 again). -/
theorem disconnect_teardown_once_witness :
    (processMsg hStateW disconnectW).2 = .routed "vc" 0 :: teardownEffects "vc" 0 ∧
    alookup "vc" (processMsg hStateW disconnectW).1.registry = none ∧
    (∀ e ∈ (runMsgs (processMsg hStateW disconnectW).1 [disconnectW]).2,
      teardownSidOf e ≠ some 0) := by
  have h := disconnect_teardown_once hStateW "vc" 0 disconnectW [disconnectW]
    (by constructor <;> simp [hStateW]) (by rfl) (by rfl) (by rfl) (by rfl)
  exact ⟨h.1, h.2.2.1, h.2.2.2⟩

/-- C10: a bot-authored message, or a message not starting with '/', is
ignored entirely: the handler state is unchanged (no session is created)
and no effect — no routing, no reply — is produced. -/
theorem bot_and_nonslash_ignored (st : HState) (m : MsgIn)
    (h : m.authorBot = true ∨ strStarts m.content "/" = false) :
    processMsg st m = (st, []) := by
  rcases h with h | h
  · exact processMsg_bot st m h
  · by_cases hb : m.authorBot = true
    · exact processMsg_bot st m hb
    · exact processMsg_noslash st m (by simpa using hb) h

/-- Witness for C10: a bot message and a non-slash message, each against
the empty handler state. -/
theorem bot_and_nonslash_ignored_witness :
    processMsg initialHState botW = (initialHState, []) ∧
    processMsg initialHState noSlashW = (initialHState, []) := by
  exact ⟨bot_and_nonslash_ignored initialHState botW (Or.inl (by rfl)),
    bot_and_nonslash_ignored initialHState noSlashW (Or.inr (by decide))⟩

/-- C8: `/disconnect` for a channel with no live session does not throw and
does not resurrect a session: the handler acknowledges the command and does
nothing else — no player disconnect, no 'Bye!' reply, and afterwards the
channel still has no live session. -/
theorem disconnect_not_connected_noop (st : NHState) (ch : String)
    (h : alookup ch st.players = none) :
    nhHandleDisconnect st ch = (st, [Effect.commandCalled "/disconnect"]) ∧
    alookup ch (nhHandleDisconnect st ch).1.players = none ∧
    (∀ e ∈ (nhHandleDisconnect st ch).2, ∀ sid, e ≠ .playerDisconnected sid) ∧
    (∀ e ∈ (nhHandleDisconnect st ch).2, ∀ sid msg, e ≠ .reply sid msg) := by
  have heq : nhHandleDisconnect st ch = (st, [Effect.commandCalled "/disconnect"]) := by
    simp [nhHandleDisconnect, h]
  rw [heq]
  refine ⟨rfl, h, ?_, ?_⟩
  · intro e he sid
    simp only [List.mem_singleton] at he
    subst he
    simp
  · intro e he sid msg
    simp only [List.mem_singleton] at he
    subst he
    simp

/-- Witness for C8: `/disconnect` against an empty player registry. -/
theorem disconnect_not_connected_noop_witness :
    nhHandleDisconnect ⟨[]⟩ "vc" = (⟨[]⟩, [Effect.commandCalled "/disconnect"]) ∧
    alookup "vc" (nhHandleDisconnect ⟨[]⟩ "vc").1.players = none := by
  have h := disconnect_not_connected_noop ⟨[]⟩ "vc" (by rfl)
  exact ⟨h.1, h.2.1⟩

/-! ## Lemmas about the JS split helper -/

theorem isPrefixOf_append_self (l t : List Char) : l.isPrefixOf (l ++ t) = true := by
  induction l with
  | nil => simp [List.isPrefixOf]
  | cons c cs ih => simp [List.isPrefixOf, ih]

theorem jsSplitGo_noSep (c : Char) (cs : List Char) :
    ∀ (s : List Char), c ∉ s → ∀ acc, jsSplitGo (c :: cs) s acc = [acc.reverse ++ s] := by
  intro s
  induction s with
  | nil =>
    intro _ acc
    simp [jsSplitGo]
  | cons d rest ih =>
    intro hmem acc
    simp only [List.mem_cons, not_or] at hmem
    have hne : (c == d) = false := by simpa using hmem.1
    have hpre : ((c :: cs).isPrefixOf (d :: rest)) = false := by
      simp [List.isPrefixOf, hne]
    simp only [jsSplitGo, hpre, Bool.false_eq_true, if_false]
    rw [ih hmem.2 (d :: acc)]
    simp

theorem jsSplitGo_leading (c : Char) (cs t acc : List Char) :
    jsSplitGo (c :: cs) ((c :: cs) ++ t) acc = acc.reverse :: jsSplitGo (c :: cs) t [] := by
  have hpre : ((c :: cs).isPrefixOf (c :: (cs ++ t))) = true := by
    simpa using isPrefixOf_append_self (c :: cs) t
  simp only [List.cons_append, jsSplitGo, hpre, if_true]
  congr 1
  simp [List.drop_left]

theorem jsSplitGo_single (c : Char) (d2 : List Char) (h2 : c ∉ d2) :
    ∀ (d1 acc : List Char), c ∉ d1 →
      jsSplitGo [c] (d1 ++ c :: d2) acc = [acc.reverse ++ d1, d2] := by
  intro d1
  induction d1 with
  | nil =>
    intro acc _
    have hpre : ([c].isPrefixOf (c :: d2)) = true := by simp [List.isPrefixOf]
    simp only [List.nil_append, jsSplitGo, hpre, if_true]
    rw [show [c].length - 1 = 0 from rfl, List.drop_zero]
    rw [jsSplitGo_noSep c [] d2 h2 []]
    simp
  | cons e d1' ih =>
    intro acc hmem
    simp only [List.mem_cons, not_or] at hmem
    have hne : (c == e) = false := by simpa using hmem.1
    have hpre : ([c].isPrefixOf (e :: (d1' ++ c :: d2))) = false := by
      simp [List.isPrefixOf, hne]
    simp only [List.cons_append, jsSplitGo, hpre, Bool.false_eq_true, if_false]
    rw [ih (e :: acc) hmem.2]
    simp

theorem digits_no_slash_colon (s : List Char) (h : s.all Char.isDigit = true) :
    '/' ∉ s ∧ ':' ∉ s := by
  constructor <;> intro hmem <;>
    exact absurd (List.all_eq_true.mp h _ hmem) (by decide)

/-! ## Claim theorem for `/seek` -/

/-- C9: a `/seek` argument of the form `minutes:seconds` (two digit
strings) makes the handler emit the offset `minutes * 60 + seconds` on
`env.seek` (the value the player receives), and a plain-number argument
emits exactly that number of seconds. -/
theorem seek_offset_arithmetic :
    (∀ (d1 d2 : List Char), d1.all Char.isDigit = true → d2.all Char.isDigit = true →
      seekBranch (seekSep ++ (d1 ++ ':' :: d2)) =
        some (some (digitsVal d1 * 60 + digitsVal d2))) ∧
    (∀ (d : List Char), d ≠ [] → d.all Char.isDigit = true →
      seekBranch (seekSep ++ d) = some (some (digitsVal d))) := by
  constructor
  · intro d1 d2 h1 h2
    obtain ⟨hs1, hc1⟩ := digits_no_slash_colon d1 h1
    obtain ⟨hs2, hc2⟩ := digits_no_slash_colon d2 h2
    have harg : '/' ∉ (d1 ++ ':' :: d2) := by
      simp only [List.mem_append, List.mem_cons, not_or]
      exact ⟨hs1, by decide, hs2⟩
    have hsplit1 : jsSplit seekSep (seekSep ++ (d1 ++ ':' :: d2)) =
        [[], d1 ++ ':' :: d2] := by
      rw [jsSplit, show seekSep = '/' :: ['s', 'e', 'e', 'k', ' '] from rfl,
        jsSplitGo_leading, jsSplitGo_noSep '/' _ _ harg []]
      simp
    have hsplit2 : jsSplit [':'] (d1 ++ ':' :: d2) = [d1, d2] := by
      rw [jsSplit, jsSplitGo_single ':' d2 hc2 d1 [] hc1]
      simp
    have hne : (d1 ++ ':' :: d2) ≠ [] := by cases d1 <;> simp
    simp [seekBranch, hsplit1, hsplit2, hne, jsNumberAt, jsNumber, h1, h2]
  · intro d hd h
    obtain ⟨hs, hc⟩ := digits_no_slash_colon d h
    have hsplit1 : jsSplit seekSep (seekSep ++ d) = [[], d] := by
      rw [jsSplit, show seekSep = '/' :: ['s', 'e', 'e', 'k', ' '] from rfl,
        jsSplitGo_leading, jsSplitGo_noSep '/' _ _ hs []]
      simp
    have hsplit2 : jsSplit [':'] d = [d] := by
      rw [jsSplit, jsSplitGo_noSep ':' [] d hc []]
      simp
    simp [seekBranch, hsplit1, hsplit2, hd, jsNumber, h]

/-- Witness for C9: `/seek 1:30` seeks to 90 seconds and `/seek 90` seeks
to 90 seconds. -/
theorem seek_offset_arithmetic_witness :
    seekBranch (seekSep ++ (['1'] ++ ':' :: ['3', '0'])) =
      some (some (digitsVal ['1'] * 60 + digitsVal ['3', '0'])) ∧
    digitsVal ['1'] * 60 + digitsVal ['3', '0'] = 90 ∧
    seekBranch (seekSep ++ ['9', '0']) = some (some (digitsVal ['9', '0'])) ∧
    digitsVal ['9', '0'] = 90 := by
  exact ⟨seek_offset_arithmetic.1 ['1'] ['3', '0'] (by decide) (by decide), by decide,
    seek_offset_arithmetic.2 ['9', '0'] (by decide) (by decide), by decide⟩

end Joovy
